import Mathlib

/-!
Verification of the `mgconfig` secure store (`src/mgconfig/secure_store.py`)
against its natural-language specification.

The Python module is shallowly embedded: every method of `SecureStore` that
the claims touch is translated into an executable Lean function over explicit
state.  Cryptographic primitives (SHA-256, HKDF-SHA256, AES-256-GCM,
HMAC-SHA256) are modelled symbolically as free constructors of a `Bytes`
type.  This is the standard ideal-primitive model:

* hashes, derived keys, ciphertexts and MACs are pairwise distinct terms
  unless they were produced from identical inputs (collision-freeness of the
  ideal primitives corresponds to injectivity of constructors);
* AES-GCM authenticated decryption succeeds exactly on a ciphertext that was
  honestly produced under the same key, nonce and associated data, and yields
  the original plaintext (ideal AEAD: forging a valid ciphertext, or having a
  bit-flipped ciphertext authenticate, happens only with negligible
  probability and is modelled as impossible);
* `Bytes.flip b i` stands for `b` with one bit altered; it is a fresh term,
  never equal to a well-formed ciphertext or to `b` itself.

Base64 encoding/decoding (`bytes_to_b64str` / `b64str_to_bytes`) is a
bijection in the Python helpers, so the model identifies a byte string with
its Base64 rendering and both conversions are the identity.

Randomness (`os.urandom`) is modelled by an explicit counter: the n-th draw
of the process is the term `Bytes.rand n`; callers thread the counter.
-/

namespace Mg

/-- The two HKDF purposes of `KeyType` in `secure_store.py`: the `aes`
purpose carries info `SecureStore|enc-key|v1`, the `mac` purpose carries
info `SecureStore|mac-key|v1`.  Distinct purposes give distinct infos. -/
inductive KeyPurpose where
  | aes
  | mac
deriving DecidableEq, Repr

/-- Symbolic byte strings (ideal-primitive model, see the file header).
`str s` is the UTF-8 encoding of the plain string `s`; `rand n` the n-th
output of `os.urandom`; `hash` SHA-256; `hkdf master salt purpose` the
HKDF-SHA256 derived key; `enc key nonce aadv pt` an AES-256-GCM ciphertext;
`hmacB key msg` an HMAC-SHA256 tag; `aadv ver salt mkh name` the encoded AAD
string `SecureStore:v{ver}|{salt}|{mkh}|{name}`; `pair`/`nilB` build the
canonical JSON byte string of an item map; `flip b i` is `b` with bit `i`
altered. -/
inductive Bytes where
  | str : String → Bytes
  | rand : Nat → Bytes
  | hash : Bytes → Bytes
  | hkdf : Bytes → Bytes → KeyPurpose → Bytes
  | enc : Bytes → Bytes → Bytes → Bytes → Bytes
  | hmacB : Bytes → Bytes → Bytes
  | aadv : Nat → Bytes → Bytes → String → Bytes
  | pair : Bytes → Bytes → Bytes
  | nilB : Bytes
  | flip : Bytes → Nat → Bytes
deriving DecidableEq, Repr

/-- An item of the store: the pair (nonce, ciphertext), i.e. the Python dict
`{'n': nonce_b64, 'ct': ct_b64}`. -/
abbrev Entry := Bytes × Bytes

/-- The item map `self._items : dict[str, dict[str, str]]`.  Python dicts
preserve insertion order and have unique keys; they are modelled as
association lists in insertion order. -/
abbrev Items := List (String × Entry)

/-- Python dict lookup `m.get(k)`. -/
def dget (m : Items) (k : String) : Option Entry :=
  match m with
  | [] => none
  | (k1, v) :: t => if k1 = k then some v else dget t k

/-- Python dict assignment `m[k] = v`: replaces in place if the key exists,
appends otherwise. -/
def dinsert (m : Items) (k : String) (v : Entry) : Items :=
  match m with
  | [] => [(k, v)]
  | (k1, v1) :: t => if k1 = k then (k1, v) :: t else (k1, v1) :: dinsert t k v

/-- Python dict removal `m.pop(k, None)` (the value part). -/
def dremove (m : Items) (k : String) : Items :=
  match m with
  | [] => []
  | (k1, v) :: t => if k1 = k then t else (k1, v) :: dremove t k

/-- Lexicographic comparison of character lists by code point: exactly the
order Python uses on `str` when `json.dumps(..., sort_keys=True)` sorts the
item names. -/
def listLeB : List Char → List Char → Bool
  | [], _ => true
  | _ :: _, [] => false
  | c :: cs, d :: ds =>
    if c.toNat < d.toNat then true
    else if d.toNat < c.toNat then false
    else listLeB cs ds

/-- Comparison of items by their name, the order in which
`json.dumps(..., sort_keys=True)` emits the keys. -/
def keyLe (a b : String × Entry) : Prop :=
  listLeB a.1.data b.1.data = true

instance : DecidableRel keyLe :=
  fun a b => inferInstanceAs (Decidable (listLeB a.1.data b.1.data = true))

/-- Strict version of `keyLe`, used to show the canonical order of an item
map with distinct names is unique. -/
def keyLt (a b : String × Entry) : Prop :=
  keyLe a b ∧ a.1 ≠ b.1

/-- Key-sorting of the item map, as performed by
`json.dumps(items, sort_keys=True)` in `_canonicalize_items`. -/
def sortItems (l : Items) : Items :=
  l.insertionSort keyLe

/-- The canonical byte string of a key-sorted item map: the JSON document
with sorted keys and tight separators produced by `_canonicalize_items`
(the inner dicts have the fixed key order `ct` before `n`, so an item map
determines the document and conversely). -/
def canonBytes (l : Items) : Bytes :=
  match l with
  | [] => Bytes.nilB
  | (k, e) :: t => Bytes.pair (Bytes.str k) (Bytes.pair e.1 (Bytes.pair e.2 (canonBytes t)))

/-- `ITEMS_MAC_ALG` in `secure_store.py`. -/
def ITEMS_MAC_ALG : String := "HMAC-SHA256"

/-- `KDF_ALG` in `secure_store.py`. -/
def KDF_ALG : String := "HKDF-SHA256"

/-- `AUTO_EXCHANGE_OLD_MASTER_KEY` in `secure_store.py`: reserved item name
holding the current master key encrypted with the new master key. -/
def AUTO_EXCHANGE_OLD_MASTER_KEY : String := "_aemk_old_k"

/-- `MAX_SECRET_LEN` in `secure_store.py`. -/
def MAX_SECRET_LEN : Nat := 1000

/-- `StoreHeader` dataclass of `secure_store.py`.  `salt_b64` and `mk_hash`
are Base64 strings in Python, identified here with the underlying bytes. -/
structure StoreHeader where
  version : Nat
  kdf : String
  salt_b64 : Bytes
  created_at : Nat
  mk_hash : Bytes
  items_mac_b64 : Option Bytes
  items_mac_alg : Option String
deriving DecidableEq, Repr

/-- The serialized store document `{"_header": ..., "items": ...}` that
`_ssf_save` writes and `_ssf_load` reads. -/
structure FileData where
  fheader : StoreHeader
  fitems : Items
deriving DecidableEq, Repr

/-- The file-system state seen by one store: the store file (if present) and
whether a temporary file of an interrupted save is lying around. -/
structure DiskState where
  file : Option FileData
  tmp : Bool
deriving DecidableEq, Repr

/-- The in-memory state of a `SecureStore` object: header, item map, salt,
raw master key (`self._master_key`), dirty flag and the `_mk_validated`
flag set by the constructor. -/
structure SecureStore where
  header : StoreHeader
  items : Items
  salt : Bytes
  master_key : Bytes
  dirty : Bool
  mk_validated : Bool
deriving DecidableEq, Repr

/-- `SecureStore._key`: HKDF-SHA256 derivation of the purpose-specific
subkey from the master key and the store salt. -/
def derive_key (S : SecureStore) (p : KeyPurpose) : Bytes :=
  Bytes.hkdf S.master_key S.salt p

/-- `hash_bytes` of `secure_store_helpers.py`: Base64 SHA-256 digest. -/
def hash_bytes (b : Bytes) : Bytes :=
  Bytes.hash b

/-- `SecureStore.master_key_hash` property. -/
def master_key_hash (S : SecureStore) : Bytes :=
  hash_bytes S.master_key

/-- `SecureStore._aad`: the associated data
`SecureStore:v{version}|{salt_b64}|{mk_hash}|{name}` binding store version,
salt, master-key hash and entry name. -/
def aadOf (S : SecureStore) (name : String) : Bytes :=
  Bytes.aadv S.header.version S.header.salt_b64 S.header.mk_hash name

/-- Ideal AES-256-GCM decryption `AESGCM(key).decrypt(nonce, ct, aadv)`:
succeeds exactly on a ciphertext honestly produced under the same key, nonce
and associated data (`InvalidTag` otherwise, modelled as `none`). -/
def gcmDecrypt (key nonce aadv ct : Bytes) : Option Bytes :=
  match ct with
  | Bytes.enc k n a p => if k = key ∧ n = nonce ∧ a = aadv then some p else none
  | _ => none

/-- Python truthiness of an optional Base64 string field: `None` and the
empty string are falsy (`if not self._header.items_mac_b64`). -/
def isTruthy (b : Option Bytes) : Bool :=
  match b with
  | none => false
  | some b => b ≠ Bytes.str ""

/-- UTF-8 byte length of the Python `str` rendered from a model value:
a plain string contributes its UTF-8 size; every other `Bytes` term occurs
as a plaintext only as the Base64 rendering of a 32-byte master key, whose
string form has 44 characters. -/
def utf8Len (b : Bytes) : Nat :=
  match b with
  | Bytes.str s => s.utf8ByteSize
  | _ => 44

/-- `SecureStore.compute_items_mac`: HMAC-SHA256 with the `mac`-purpose
derived key over the canonicalized (key-sorted) item map. -/
def compute_items_mac (S : SecureStore) (items : Items) : Bytes :=
  Bytes.hmacB (derive_key S KeyPurpose.mac) (canonBytes (sortItems items))

/-- `SecureStore.verify_items_mac`: recompute and compare; `False` on a
missing/empty MAC string. -/
def verify_items_mac (S : SecureStore) (items : Items) (mac_b64 : Option Bytes) : Bool :=
  match mac_b64 with
  | none => false
  | some m =>
    if m = Bytes.str "" then false
    else compute_items_mac S items = m

/-- The item `store_secret` builds for `name ↦ value` when the process's
next random draw is `rng`: a fresh random nonce and the AES-256-GCM
ciphertext under the store's derived encryption key and the AAD of
`name`. -/
def freshEntry (S : SecureStore) (rng : Nat) (name : String) (value : Bytes) : Entry :=
  (Bytes.rand rng, Bytes.enc (derive_key S KeyPurpose.aes) (Bytes.rand rng) (aadOf S name) value)

/-- `SecureStore.store_secret`: reject plaintexts longer than
`MAX_SECRET_LEN` bytes, otherwise AES-256-GCM-encrypt under a fresh random
nonce and store under `name`, marking the store dirty.  The result is
(raised exception if any, object state, random counter); on the error path
the object is unchanged because the length check precedes any mutation. -/
def store_secret (S : SecureStore) (rng : Nat) (name : String) (value : Bytes) :
    Option String × SecureStore × Nat :=
  if utf8Len value > MAX_SECRET_LEN then
    (some "value too large", S, rng)
  else
    (none, { S with items := dinsert S.items name (freshEntry S rng name value), dirty := true },
     rng + 1)

/-- `SecureStore.retrieve_secret`: decrypt the named item; `none` if the
item is absent or authenticated decryption fails (the `InvalidTag` handler
returns `None`). -/
def retrieve_secret (S : SecureStore) (name : String) : Option Bytes :=
  match dget S.items name with
  | none => none
  | some e => gcmDecrypt (derive_key S KeyPurpose.aes) e.1 (aadOf S name) e.2

/-- `SecureStore.delete_secret`: unconditionally marks the store dirty, then
pops the item, reporting whether it was present. -/
def delete_secret (S : SecureStore) (name : String) : SecureStore × Bool :=
  ({ S with items := dremove S.items name, dirty := true },
   (dget S.items name).isSome)

/-- `SecureStore.retrieve_all_secrets`: decrypt every item in insertion
order, silently skipping the ones whose decryption fails. -/
def retrieve_all_secrets (S : SecureStore) : List (String × Bytes) :=
  S.items.filterMap (fun p => (retrieve_secret S p.1).map (fun v => (p.1, v)))

/-- `SecureStore.store_all_secrets`: store each value in turn; a raised
exception aborts the loop and propagates, keeping mutations made so far. -/
def store_all_secrets (S : SecureStore) (rng : Nat) :
    List (String × Bytes) → Option String × SecureStore × Nat
  | [] => (none, S, rng)
  | (k, v) :: t =>
    match store_secret S rng k v with
    | (some e, S1, rng1) => (some e, S1, rng1)
    | (none, S1, rng1) => store_all_secrets S1 rng1 t

/-- The header as `_ssf_save` rewrites it before serializing: items-MAC
recomputed over the current items under the current master key, MAC
algorithm set to `HMAC-SHA256`. -/
def savedHeader (S : SecureStore) : StoreHeader :=
  { S.header with
    items_mac_b64 := some (compute_items_mac S S.items),
    items_mac_alg := some ITEMS_MAC_ALG }

/-- The document `_ssf_save` serializes and writes. -/
def savedFile (S : SecureStore) : FileData :=
  { fheader := savedHeader S, fitems := S.items }

/-- `SecureStore._ssf_save`, with the outcome of the temporary-file write
made explicit.  The method skips when neither forced nor dirty; otherwise it
recomputes the items-MAC and the MAC algorithm into the in-memory header,
serializes the document, writes it to a fresh temporary file created by
`open_secure_file` and atomically renames it over the store file
(`os.replace`, which also removes the temporary name).  If the write to the
temporary file fails (`writeOk = false`), the `OSError` propagates: the
in-memory header keeps its recomputed MAC, the store file is untouched, and
nothing removes the temporary file. -/
def ssf_save_io (writeOk : Bool) (force : Bool) (S : SecureStore) (d : DiskState) :
    Option String × SecureStore × DiskState :=
  if ¬force ∧ ¬S.dirty then (none, S, d)
  else
    let S1 := { S with header := savedHeader S }
    if writeOk then
      (none, S1, { file := some (savedFile S), tmp := false })
    else
      (some "temp write failed", S1, { file := d.file, tmp := true })

/-- `SecureStore._ssf_save` on the normal path (the temporary-file write
succeeds). -/
def ssf_save (force : Bool) (S : SecureStore) (d : DiskState) : SecureStore × DiskState :=
  (ssf_save_io true force S d).2

/-- `SecureStore.__exit__`: receives the exception state of the `with`
block and saves whenever the store is dirty.  The body of the Python method
is `if self._dirty: self._ssf_save()` — the exception arguments are bound
but never inspected. -/
def exitStore (excInFlight : Bool) (S : SecureStore) (d : DiskState) : SecureStore × DiskState :=
  if S.dirty then ssf_save false S d else (S, d)

/-- Result of `validate_master_key` (and of the constructor, which ends by
calling it): raised exception (if any), returned boolean (meaningful only
when `exc = none`), object state at return or raise time, disk state,
random counter. -/
structure VRes where
  exc : Option String
  valid : Bool
  S : SecureStore
  d : DiskState
  rng : Nat
deriving DecidableEq, Repr

/-- `SecureStore._auto_key_exchange`, invoked from `validate_master_key`
while the in-memory key is the recovered old key: delete the reserved item,
decrypt every remaining item under the old key, switch to the new key,
re-encrypt everything (note: while `header.mk_hash` still records the old
key's hash, so the fresh ciphertexts bind the old hash in their AAD), only
then update `header.mk_hash`, and force-save. -/
def auto_key_exchange (S : SecureStore) (new_master_key : Bytes) (d : DiskState) (rng : Nat) :
    VRes :=
  let S1 := (delete_secret S AUTO_EXCHANGE_OLD_MASTER_KEY).1
  let vals := retrieve_all_secrets S1
  let S2 := { S1 with master_key := new_master_key }
  match store_all_secrets S2 rng vals with
  | (some e, S3, rng1) => { exc := some e, valid := false, S := S3, d := d, rng := rng1 }
  | (none, S3, rng1) =>
    let S4 := { S3 with header := { S3.header with mk_hash := master_key_hash S3 } }
    let (S5, d1) := ssf_save true S4 d
    { exc := none, valid := true, S := S5, d := d1, rng := rng1 }

/-- `SecureStore.validate_master_key`: raise on a missing items-MAC; if the
stored master-key hash matches the current key, verify the items-MAC (raise
on mismatch) and return valid; otherwise try the rotation chain: recover the
old key from the reserved item under the current key, return invalid if it
is absent, fails to decrypt, or hashes differently from the header; else
switch to the old key, verify the items-MAC under it (raise on mismatch) and
run the automatic key exchange. -/
def validate_master_key (S : SecureStore) (d : DiskState) (rng : Nat) : VRes :=
  if ¬ isTruthy S.header.items_mac_b64 then
    { exc := some "SecureStore integrity check failed (items MAC missing)",
      valid := false, S := S, d := d, rng := rng }
  else if S.header.mk_hash = master_key_hash S then
    if ¬ verify_items_mac S S.items S.header.items_mac_b64 then
      { exc := some "SecureStore integrity check failed (items MAC mismatch)",
        valid := false, S := S, d := d, rng := rng }
    else
      { exc := none, valid := true, S := S, d := d, rng := rng }
  else
    match retrieve_secret S AUTO_EXCHANGE_OLD_MASTER_KEY with
    | none => { exc := none, valid := false, S := S, d := d, rng := rng }
    | some old_master_key =>
      if S.header.mk_hash ≠ hash_bytes old_master_key then
        { exc := none, valid := false, S := S, d := d, rng := rng }
      else
        let new_master_key := S.master_key
        let S1 := { S with master_key := old_master_key }
        if ¬ verify_items_mac S1 S1.items S1.header.items_mac_b64 then
          { exc := some "SecureStore integrity check failed (items MAC mismatch)",
            valid := false, S := S1, d := d, rng := rng }
        else
          auto_key_exchange S1 new_master_key d rng

/-- Result of `prepare_auto_key_exchange`: the new master key (when no
exception was raised) plus the world state. -/
structure PRes where
  exc : Option String
  newKey : Option Bytes
  S : SecureStore
  d : DiskState
  rng : Nat
deriving DecidableEq, Repr

/-- `SecureStore.prepare_auto_key_exchange`: generate a fresh master key,
switch to it, encrypt and store the current key under the reserved name
`_aemk_old_k`, switch back to the current key, force-save, and return the
new key. -/
def prepare_auto_key_exchange (S : SecureStore) (d : DiskState) (rng : Nat) : PRes :=
  let current_mk := S.master_key
  let new_master_key := Bytes.rand rng
  let S1 := { S with master_key := new_master_key }
  match store_secret S1 (rng + 1) AUTO_EXCHANGE_OLD_MASTER_KEY current_mk with
  | (some e, S2, rng1) => { exc := some e, newKey := none, S := S2, d := d, rng := rng1 }
  | (none, S2, rng1) =>
    let S3 := { S2 with master_key := current_mk }
    let (S4, d1) := ssf_save true S3 d
    { exc := none, newKey := some new_master_key, S := S4, d := d1, rng := rng1 }

/-- The item map after `prepare_auto_key_exchange` on store `S` with random
counter `rng`: the original items plus the reserved item holding the old
master key encrypted under the freshly generated key `Bytes.rand rng` with
nonce `Bytes.rand (rng + 1)`. -/
def prepItems (S : SecureStore) (rng : Nat) : Items :=
  dinsert S.items AUTO_EXCHANGE_OLD_MASTER_KEY
    (freshEntry { S with master_key := Bytes.rand rng } (rng + 1)
      AUTO_EXCHANGE_OLD_MASTER_KEY S.master_key)

/-- The in-memory store right before the force-save at the end of
`prepare_auto_key_exchange`: reserved item added, key back to the old one,
dirty. -/
def prepStore (S : SecureStore) (rng : Nat) : SecureStore :=
  { S with items := prepItems S rng, dirty := true }

/-- The header update `_auto_key_exchange` performs after re-encrypting:
`header.mk_hash` set to the hash of the (new) in-memory master key. -/
def rotatedStore (S3 : SecureStore) : SecureStore :=
  { S3 with header := { S3.header with mk_hash := master_key_hash S3 } }

/-- `SecureStore.__init__`: load the document if the file exists (salt from
the header, dirty reset), otherwise create a fresh store (random salt,
header bound to the hash of the supplied key, empty items, force-save);
then set `_mk_validated` from `validate_master_key()`.  `created_at` is a
wall-clock timestamp with no behavioural role and is modelled as 0. -/
def initStore (master_key : Bytes) (d : DiskState) (rng : Nat) : VRes :=
  match d.file with
  | some f =>
    let S : SecureStore :=
      { header := f.fheader, items := f.fitems, salt := f.fheader.salt_b64,
        master_key := master_key, dirty := false, mk_validated := false }
    let r := validate_master_key S d rng
    { r with S := { r.S with mk_validated := r.valid } }
  | none =>
    let salt := Bytes.rand rng
    let hdr : StoreHeader :=
      { version := 1, kdf := KDF_ALG, salt_b64 := salt, created_at := 0,
        mk_hash := hash_bytes master_key, items_mac_b64 := none,
        items_mac_alg := some ITEMS_MAC_ALG }
    let S : SecureStore :=
      { header := hdr, items := [], salt := salt, master_key := master_key,
        dirty := false, mk_validated := false }
    let (S1, d1) := ssf_save true S d
    let r := validate_master_key S1 d1 (rng + 1)
    { r with S := { r.S with mk_validated := r.valid } }

/-!
Concrete stores used to exercise the model: a fresh empty disk, a
well-formed store holding `A ↦ "x"` and `B ↦ "y"`, and variations for the
individual scenarios.
-/

/-- A path with no store file and no leftover temporary file. -/
def emptyDisk : DiskState :=
  { file := none, tmp := false }

/-- Master key of the well-formed sample store. -/
def wMk : Bytes := Bytes.rand 0

/-- Salt of the well-formed sample store. -/
def wSalt : Bytes := Bytes.rand 1

/-- The AAD the sample store computes for an item name. -/
def wAad (name : String) : Bytes :=
  Bytes.aadv 1 wSalt (Bytes.hash wMk) name

/-- Item `A ↦ "x"` of the sample store, honestly encrypted. -/
def wEntryA : Entry :=
  (Bytes.rand 2,
   Bytes.enc (Bytes.hkdf wMk wSalt KeyPurpose.aes) (Bytes.rand 2) (wAad "A") (Bytes.str "x"))

/-- Item `B ↦ "y"` of the sample store, honestly encrypted. -/
def wEntryB : Entry :=
  (Bytes.rand 3,
   Bytes.enc (Bytes.hkdf wMk wSalt KeyPurpose.aes) (Bytes.rand 3) (wAad "B") (Bytes.str "y"))

/-- Item map of the sample store. -/
def wItems : Items := [("A", wEntryA), ("B", wEntryB)]

/-- Correct items-MAC of the sample store. -/
def wMac : Bytes :=
  Bytes.hmacB (Bytes.hkdf wMk wSalt KeyPurpose.mac) (canonBytes (sortItems wItems))

/-- Header of the sample store. -/
def wHeader : StoreHeader :=
  { version := 1, kdf := KDF_ALG, salt_b64 := wSalt, created_at := 0,
    mk_hash := Bytes.hash wMk, items_mac_b64 := some wMac,
    items_mac_alg := some ITEMS_MAC_ALG }

/-- A well-formed sample store: consistent header, two honestly encrypted
items, correct items-MAC, clean. -/
def wStore : SecureStore :=
  { header := wHeader, items := wItems, salt := wSalt, master_key := wMk,
    dirty := false, mk_validated := true }

/-- The sample store with unsaved changes. -/
def dirtyStore : SecureStore :=
  { wStore with dirty := true }

/-- Correct items-MAC over an empty item map under the sample key. -/
def c3Mac : Bytes :=
  Bytes.hmacB (Bytes.hkdf wMk wSalt KeyPurpose.mac) (canonBytes (sortItems []))

/-- A store that is intact in every respect except that its header records
the MAC algorithm `"MD5"` instead of `HMAC-SHA256`. -/
def c3Store : SecureStore :=
  { header := { version := 1, kdf := KDF_ALG, salt_b64 := wSalt, created_at := 0,
                mk_hash := Bytes.hash wMk, items_mac_b64 := some c3Mac,
                items_mac_alg := some "MD5" },
    items := [], salt := wSalt, master_key := wMk, dirty := false,
    mk_validated := false }

/-- A store opened with an unrelated master key: the header records the
sample key's hash but the in-memory key is a different random key, and no
reserved rotation item exists. -/
def c4Store : SecureStore :=
  { header := wHeader, items := wItems, salt := wSalt,
    master_key := Bytes.rand 7, dirty := false, mk_validated := false }

/-- An item whose ciphertext is not a valid AES-GCM ciphertext, so its
authenticated decryption fails. -/
def c10Entry : Entry := (Bytes.rand 4, Bytes.str "garbage")

/-- The sample store with an extra item `W` that fails decryption. -/
def c10Store : SecureStore :=
  { wStore with items := wItems ++ [("W", c10Entry)] }

/-- Two-item map in one insertion order. -/
def c9l1 : Items := [("a", wEntryA), ("b", wEntryB)]

/-- The same two-item map in the opposite insertion order. -/
def c9l2 : Items := [("b", wEntryB), ("a", wEntryA)]

/-!
The full rotation scenario of the specification, run on concrete data:
create a store under `K1`, store `A ↦ "x"` and `B ↦ "y"`, save, prepare the
automatic key exchange (yielding `K2`), reopen with `K2` (which runs the
exchange), and finally reopen with the stale `K1`.
-/

/-- The externally supplied first master key `K1`. -/
def c1K1 : Bytes := Bytes.str "K1KEY"

/-- Opening the store on an empty path with `K1` (creates the file). -/
def c1open1 : VRes := initStore c1K1 emptyDisk 0

/-- `store_secret("A", "x")`. -/
def c1afterA : Option String × SecureStore × Nat :=
  store_secret c1open1.S c1open1.rng "A" (Bytes.str "x")

/-- `store_secret("B", "y")`. -/
def c1afterB : Option String × SecureStore × Nat :=
  store_secret c1afterA.2.1 c1afterA.2.2 "B" (Bytes.str "y")

/-- Saving the two items. -/
def c1saved : SecureStore × DiskState :=
  ssf_save false c1afterB.2.1 c1open1.d

/-- `prepare_auto_key_exchange()`, returning the new key `K2`. -/
def c1prep : PRes :=
  prepare_auto_key_exchange c1saved.1 c1saved.2 c1afterB.2.2

/-- The new master key `K2` returned by the preparation. -/
def c1K2 : Bytes := c1prep.newKey.getD Bytes.nilB

/-- Reopening the store with `K2`: the constructor validates the key, which
performs the automatic key exchange. -/
def c1open2 : VRes := initStore c1K2 c1prep.d c1prep.rng

/-- Reopening the store with the stale `K1` afterwards. -/
def c1open3 : VRes := initStore c1K1 c1open2.d c1open2.rng

/-!
Helper lemmas about the dictionary operations, the symbolic byte strings
and the canonical sorting.
-/

theorem dget_dinsert_self (m : Items) (k : String) (v : Entry) :
    dget (dinsert m k v) k = some v := by
  induction m with
  | nil => simp [dget, dinsert]
  | cons p t ih =>
    obtain ⟨k1, v1⟩ := p
    by_cases h : k1 = k
    · simp [dinsert, dget, h]
    · simp [dinsert, dget, h, ih]

theorem dget_dinsert_ne (m : Items) (k : String) (v : Entry) (k1 : String) (h : k1 ≠ k) :
    dget (dinsert m k v) k1 = dget m k1 := by
  induction m with
  | nil =>
    simp only [dinsert, dget]
    rw [if_neg (fun hh => h hh.symm)]
  | cons p t ih =>
    obtain ⟨k2, v2⟩ := p
    simp only [dinsert, dget]
    by_cases hk : k2 = k
    · subst hk
      have hne : ¬ (k2 = k1) := fun hh => h hh.symm
      rw [if_pos rfl]
      simp only [dget]
      rw [if_neg hne, if_neg hne]
    · rw [if_neg hk]
      simp only [dget]
      by_cases hq : k2 = k1
      · rw [if_pos hq, if_pos hq]
      · rw [if_neg hq, if_neg hq]
        exact ih

theorem dget_dremove_ne (m : Items) (k k1 : String) (h : k1 ≠ k) :
    dget (dremove m k) k1 = dget m k1 := by
  induction m with
  | nil => rfl
  | cons p t ih =>
    obtain ⟨k2, v2⟩ := p
    simp only [dremove, dget]
    by_cases hk : k2 = k
    · subst hk
      have hne : ¬ (k2 = k1) := fun hh => h hh.symm
      rw [if_pos rfl]
      rw [if_neg hne]
    · rw [if_neg hk]
      simp only [dget]
      by_cases hq : k2 = k1
      · rw [if_pos hq, if_pos hq]
      · rw [if_neg hq, if_neg hq]
        exact ih

/-- Altering a bit of a byte string yields a different byte string. -/
theorem flip_ne (b : Bytes) (i : Nat) : Bytes.flip b i ≠ b := by
  induction b generalizing i with
  | flip b1 j ih =>
    intro h
    injection h with h1 h2
    exact ih j h1
  | str s => intro h; cases h
  | rand n => intro h; cases h
  | hash b1 ih => intro h; cases h
  | hkdf b1 b2 p ih1 ih2 => intro h; cases h
  | enc b1 b2 b3 b4 ih1 ih2 ih3 ih4 => intro h; cases h
  | hmacB b1 b2 ih1 ih2 => intro h; cases h
  | aadv n b1 b2 s ih1 ih2 => intro h; cases h
  | pair b1 b2 ih1 ih2 => intro h; cases h
  | nilB => intro h; cases h

theorem listLeB_total (l1 l2 : List Char) :
    listLeB l1 l2 = true ∨ listLeB l2 l1 = true := by
  induction l1 generalizing l2 with
  | nil => left; rfl
  | cons c cs ih =>
    cases l2 with
    | nil => right; rfl
    | cons d ds =>
      by_cases h1 : c.toNat < d.toNat
      · left; simp [listLeB, h1]
      · by_cases h2 : d.toNat < c.toNat
        · right; simp [listLeB, h2]
        · rcases ih ds with h | h
          · left; simp [listLeB, h1, h2, h]
          · right; simp [listLeB, h1, h2, h]

theorem listLeB_trans (l1 l2 l3 : List Char)
    (h12 : listLeB l1 l2 = true) (h23 : listLeB l2 l3 = true) :
    listLeB l1 l3 = true := by
  induction l1 generalizing l2 l3 with
  | nil => rfl
  | cons c cs ih =>
    cases l2 with
    | nil => simp [listLeB] at h12
    | cons d ds =>
      cases l3 with
      | nil => simp [listLeB] at h23
      | cons e es =>
        simp only [listLeB] at h12 h23 ⊢
        by_cases h1 : c.toNat < d.toNat
        · by_cases h2 : d.toNat < e.toNat
          · rw [if_pos (show c.toNat < e.toNat by omega)]
          · by_cases h3 : e.toNat < d.toNat
            · rw [if_neg h2, if_pos h3] at h23
              exact absurd h23 (by simp)
            · rw [if_pos (show c.toNat < e.toNat by omega)]
        · by_cases h4 : d.toNat < c.toNat
          · rw [if_neg h1, if_pos h4] at h12
            exact absurd h12 (by simp)
          · by_cases h2 : d.toNat < e.toNat
            · rw [if_pos (show c.toNat < e.toNat by omega)]
            · by_cases h3 : e.toNat < d.toNat
              · rw [if_neg h2, if_pos h3] at h23
                exact absurd h23 (by simp)
              · rw [if_neg h1, if_neg h4] at h12
                rw [if_neg h2, if_neg h3] at h23
                rw [if_neg (show ¬ c.toNat < e.toNat by omega),
                    if_neg (show ¬ e.toNat < c.toNat by omega)]
                exact ih ds es h12 h23

theorem listLeB_antisymm (l1 l2 : List Char)
    (h12 : listLeB l1 l2 = true) (h21 : listLeB l2 l1 = true) :
    l1 = l2 := by
  induction l1 generalizing l2 with
  | nil =>
    cases l2 with
    | nil => rfl
    | cons d ds => simp [listLeB] at h21
  | cons c cs ih =>
    cases l2 with
    | nil => simp [listLeB] at h12
    | cons d ds =>
      simp only [listLeB] at h12 h21
      by_cases h1 : c.toNat < d.toNat
      · rw [if_neg (show ¬ d.toNat < c.toNat by omega), if_pos h1] at h21
        exact absurd h21 (by simp)
      · by_cases h2 : d.toNat < c.toNat
        · rw [if_neg h1, if_pos h2] at h12
          exact absurd h12 (by simp)
        · have hn : c.toNat = d.toNat := by omega
          have hcd : c = d := Char.ext (UInt32.ext hn)
          rw [if_neg h1, if_neg h2] at h12
          rw [if_neg h2, if_neg h1] at h21
          rw [hcd, ih ds h12 h21]

theorem sortItems_perm (l : Items) : (sortItems l).Perm l :=
  List.perm_insertionSort keyLe l

theorem sortItems_sorted (l : Items) : (sortItems l).Pairwise keyLe :=
  @List.sorted_insertionSort _ keyLe _
    ⟨fun a b => listLeB_total a.1.data b.1.data⟩
    ⟨fun _ _ _ h h1 => listLeB_trans _ _ _ h h1⟩ l

theorem pairwise_keyLt_of_nodup (l : Items)
    (hnd : (l.map Prod.fst).Nodup) (hs : l.Pairwise keyLe) :
    l.Pairwise keyLt := by
  have hne : l.Pairwise (fun a b => a.1 ≠ b.1) := List.pairwise_map.mp hnd
  exact hs.and hne

/-- The canonical (key-sorted) order of an item map with distinct names
depends only on which name-entry pairs are present, not on insertion
order. -/
theorem sortItems_eq_of_perm (l1 l2 : Items)
    (hnd : (l1.map Prod.fst).Nodup) (hp : l1.Perm l2) :
    sortItems l1 = sortItems l2 := by
  have p1 := sortItems_perm l1
  have p2 := sortItems_perm l2
  have hperm : (sortItems l1).Perm (sortItems l2) := p1.trans (hp.trans p2.symm)
  have hnd1 : ((sortItems l1).map Prod.fst).Nodup := ((p1.map Prod.fst).nodup_iff).mpr hnd
  have hnd2 : ((sortItems l2).map Prod.fst).Nodup := ((hperm.map Prod.fst).nodup_iff).mp hnd1
  have hs1 := pairwise_keyLt_of_nodup _ hnd1 (sortItems_sorted l1)
  have hs2 := pairwise_keyLt_of_nodup _ hnd2 (sortItems_sorted l2)
  exact @List.eq_of_perm_of_sorted _ keyLt
    ⟨fun a b h1 h2 =>
      absurd (String.ext (listLeB_antisymm _ _ h1.1 h2.1)) h1.2⟩
    _ _ hperm hs1 hs2

/-- `retrieve_secret` depends only on the looked-up entry, the master key,
the salt and the header. -/
theorem retrieve_congr (S1 S2 : SecureStore) (n : String)
    (hi : dget S1.items n = dget S2.items n) (hk : S1.master_key = S2.master_key)
    (hs : S1.salt = S2.salt) (hh : S1.header = S2.header) :
    retrieve_secret S1 n = retrieve_secret S2 n := by
  unfold retrieve_secret derive_key aadOf
  rw [hi, hk, hs, hh]

/-- Retrieving a name right after inserting an entry for it decrypts that
entry with the store's unchanged keys. -/
theorem retrieve_dinsert_self (S : SecureStore) (a : String) (e : Entry) :
    retrieve_secret { S with items := dinsert S.items a e } a =
      gcmDecrypt (derive_key S KeyPurpose.aes) e.1 (aadOf S a) e.2 := by
  have hi : ({ S with items := dinsert S.items a e } : SecureStore).items =
      dinsert S.items a e := rfl
  unfold retrieve_secret
  rw [hi, dget_dinsert_self]
  rfl

/-- Unfolding of `_ssf_save` when it actually writes (forced or dirty). -/
theorem ssf_save_spec (force : Bool) (S : SecureStore) (d : DiskState)
    (h : force = true ∨ S.dirty = true) :
    ssf_save force S d =
      ({ S with header := savedHeader S }, { file := some (savedFile S), tmp := false }) := by
  unfold ssf_save ssf_save_io
  rw [if_neg (by rcases h with h | h <;> simp [h])]
  rfl

/-- Unfolding of `store_secret` on the success path. -/
theorem store_secret_ok (S : SecureStore) (rng : Nat) (n : String) (v : Bytes)
    (h : utf8Len v ≤ MAX_SECRET_LEN) :
    store_secret S rng n v =
      (none, { S with items := dinsert S.items n (freshEntry S rng n v), dirty := true },
       rng + 1) := by
  unfold store_secret
  rw [if_neg (by omega)]

/-- `store_all_secrets` on values that all fit the length bound: no
exception, header, master key and salt unchanged, and the entry of any name
not among the stored ones is untouched. -/
theorem store_all_spec (vals : List (String × Bytes)) :
    ∀ (S : SecureStore) (rng : Nat),
      (∀ p ∈ vals, utf8Len p.2 ≤ MAX_SECRET_LEN) →
      (store_all_secrets S rng vals).1 = none ∧
      (store_all_secrets S rng vals).2.1.header = S.header ∧
      (store_all_secrets S rng vals).2.1.master_key = S.master_key ∧
      (store_all_secrets S rng vals).2.1.salt = S.salt ∧
      ∀ w, (∀ p ∈ vals, p.1 ≠ w) →
        dget (store_all_secrets S rng vals).2.1.items w = dget S.items w := by
  induction vals with
  | nil =>
    intro S rng _
    exact ⟨rfl, rfl, rfl, rfl, fun w _ => rfl⟩
  | cons p t ih =>
    intro S rng h
    obtain ⟨k, v⟩ := p
    have hp : utf8Len v ≤ MAX_SECRET_LEN := h (k, v) (List.mem_cons_self _ _)
    have ht : ∀ q ∈ t, utf8Len q.2 ≤ MAX_SECRET_LEN :=
      fun q hq => h q (List.mem_cons_of_mem _ hq)
    have hstep : store_all_secrets S rng ((k, v) :: t) =
        store_all_secrets
          { S with items := dinsert S.items k (freshEntry S rng k v), dirty := true }
          (rng + 1) t := by
      rw [store_all_secrets, store_secret_ok S rng k v hp]
    obtain ⟨e1, e2, e3, e4, e5⟩ := ih _ (rng + 1) ht
    rw [hstep]
    refine ⟨e1, e2, e3, e4, fun w hw => ?_⟩
    rw [e5 w (fun q hq => hw q (List.mem_cons_of_mem _ hq))]
    exact dget_dinsert_ne S.items k _ w (fun hh => hw (k, v) (List.mem_cons_self _ _) hh.symm)

/-!
Claim theorems.
-/

/-- **C1.** The claim states that after `prepare_auto_key_exchange()`
returns `K2`, reopening the store with `K2` yields
`validate_master_key() = true`, `retrieve_secret("A") = "x"` and
`retrieve_secret("B") = "y"`, and reopening with the stale `K1` afterwards
yields `false`.  Running the scenario on the embedded code shows the two
validation outcomes hold, but both retrievals return `None` even though the
items are present: `_auto_key_exchange` re-encrypts every item while
`header.mk_hash` still holds the old key's hash (which is bound into the
AAD) and only afterwards updates `header.mk_hash`, so every re-encrypted
item fails authenticated decryption once the new hash is in the header. -/
theorem c1_rotation_loses_items :
    c1open2.exc = none ∧ c1open2.valid = true ∧
    (dget c1open2.S.items "A").isSome = true ∧
    (dget c1open2.S.items "B").isSome = true ∧
    retrieve_secret c1open2.S "A" = none ∧
    retrieve_secret c1open2.S "B" = none ∧
    c1open3.exc = none ∧ c1open3.valid = false :=
  ⟨rfl, rfl, rfl, rfl, rfl, rfl, rfl, rfl⟩

/-- **C3 (counterexample).** A store whose header records the items-MAC
algorithm `"MD5"` — different from `HMAC-SHA256` — but is intact otherwise
validates successfully without raising: `validate_master_key` never
consults `items_mac_alg`, so an algorithm mismatch alone is not fatal,
contradicting the claim. -/
theorem c3_alg_mismatch_not_fatal :
    c3Store.header.items_mac_alg = some "MD5" ∧
    ITEMS_MAC_ALG = "HMAC-SHA256" ∧
    validate_master_key c3Store emptyDisk 0 =
      { exc := none, valid := true, S := c3Store, d := emptyDisk, rng := 0 } :=
  ⟨rfl, rfl, rfl⟩

/-- **C3 (amended).** Validating a loaded store raises a fatal integrity
error (an exception, not a boolean result) when the header's items-MAC is
missing, or when the recomputed items-MAC does not match the stored one
under the key whose hash the header records; the header's items-MAC
algorithm field is never checked, so an algorithm mismatch alone is not
fatal: with a present, matching MAC the validation returns true whatever
`items_mac_alg` holds. -/
theorem c3_integrity_error_cases (S : SecureStore) (d : DiskState) (rng : Nat) :
    (isTruthy S.header.items_mac_b64 = false →
      validate_master_key S d rng =
        { exc := some "SecureStore integrity check failed (items MAC missing)",
          valid := false, S := S, d := d, rng := rng }) ∧
    (isTruthy S.header.items_mac_b64 = true →
      S.header.mk_hash = master_key_hash S →
      (verify_items_mac S S.items S.header.items_mac_b64 = false →
        validate_master_key S d rng =
          { exc := some "SecureStore integrity check failed (items MAC mismatch)",
            valid := false, S := S, d := d, rng := rng }) ∧
      (verify_items_mac S S.items S.header.items_mac_b64 = true →
        validate_master_key S d rng =
          { exc := none, valid := true, S := S, d := d, rng := rng })) ∧
    (isTruthy S.header.items_mac_b64 = true →
      S.header.mk_hash ≠ master_key_hash S →
      ∀ old, retrieve_secret S AUTO_EXCHANGE_OLD_MASTER_KEY = some old →
        S.header.mk_hash = hash_bytes old →
        verify_items_mac { S with master_key := old } S.items S.header.items_mac_b64 = false →
        (validate_master_key S d rng).exc =
          some "SecureStore integrity check failed (items MAC mismatch)") := by
  refine ⟨fun h1 => ?_, fun h1 h2 => ⟨fun h3 => ?_, fun h3 => ?_⟩,
    fun h1 hne old hold h4 h5 => ?_⟩
  · unfold validate_master_key
    rw [if_pos (by simp [h1])]
  · unfold validate_master_key
    rw [if_neg (by simp [h1]), if_pos h2, if_pos (by simp [h3])]
  · unfold validate_master_key
    rw [if_neg (by simp [h1]), if_pos h2, if_neg (by simp [h3])]
  · have hv : validate_master_key S d rng =
        { exc := some "SecureStore integrity check failed (items MAC mismatch)",
          valid := false, S := { S with master_key := old }, d := d, rng := rng } := by
      unfold validate_master_key
      rw [if_neg (by simp [h1]), if_neg hne, hold]
      exact (if_neg (by simpa using h4)).trans (if_pos (by simp [h5]))
    rw [hv]

/-- Witness for the amended C3: the well-formed sample store validates as
true (third branch, hypotheses discharged at concrete inputs). -/
theorem c3_integrity_error_cases_witness :
    validate_master_key wStore emptyDisk 5 =
      { exc := none, valid := true, S := wStore, d := emptyDisk, rng := 5 } :=
  (((c3_integrity_error_cases wStore emptyDisk 5).2.1 rfl rfl).2) rfl

/-- **C6 (counterexample).** A dirty store inside a `with` block whose exit
is caused by an in-flight exception still saves: the exit path writes the
file even though an exception is propagating, contradicting the claim that
the on-disk file is left unchanged in that case. -/
theorem c6_exit_saves_despite_exception :
    dirtyStore.dirty = true ∧
    (exitStore true dirtyStore emptyDisk).2.file ≠ emptyDisk.file ∧
    (exitStore true dirtyStore emptyDisk).2.file = some (savedFile dirtyStore) := by
  refine ⟨rfl, ?_, rfl⟩
  intro h
  simp [exitStore, ssf_save, ssf_save_io, dirtyStore, wStore, emptyDisk] at h

/-- **C6 (amended).** The exit path of a scoped-acquisition block saves
whenever the store is dirty, regardless of whether an exception is in
flight (the exception arguments are received but never inspected); only a
non-dirty store leaves the file unchanged on exit. -/
theorem c6_exit_save_behavior (e : Bool) (S : SecureStore) (d : DiskState) :
    exitStore e S d = exitStore false S d ∧
    (S.dirty = false → exitStore e S d = (S, d)) ∧
    (S.dirty = true → (exitStore e S d).2.file = some (savedFile S)) := by
  refine ⟨rfl, fun h => ?_, fun h => ?_⟩
  · unfold exitStore
    rw [if_neg (by simp [h])]
  · unfold exitStore
    rw [if_pos (by simp [h])]
    rw [ssf_save_spec false S d (Or.inr h)]

/-- Witness for the amended C6 at concrete inputs: with an exception in
flight, the dirty sample store is saved anyway. -/
theorem c6_exit_save_behavior_witness :
    (exitStore true dirtyStore emptyDisk).2.file = some (savedFile dirtyStore) :=
  (c6_exit_save_behavior true dirtyStore emptyDisk).2.2 rfl

/-- **C7 (counterexample).** A save whose temporary-file write fails leaves
the temporary file behind: nothing in `_ssf_save` or `open_secure_file`
removes the temporary file on the error path, contradicting the claim that
it is removed before the error propagates. -/
theorem c7_tmp_left_behind :
    (ssf_save_io false false dirtyStore emptyDisk).1 = some "temp write failed" ∧
    (ssf_save_io false false dirtyStore emptyDisk).2.2.tmp = true ∧
    (ssf_save_io false false dirtyStore emptyDisk).2.2.file = emptyDisk.file :=
  ⟨rfl, rfl, rfl⟩

/-- **C7 (amended).** For every save operation in which writing the
temporary file fails, the error propagates to the caller and the original
store file is left unchanged, but the temporary file is not removed. -/
theorem c7_failed_save (force : Bool) (S : SecureStore) (d : DiskState)
    (h : force = true ∨ S.dirty = true) :
    (ssf_save_io false force S d).1 = some "temp write failed" ∧
    (ssf_save_io false force S d).2.2.file = d.file ∧
    (ssf_save_io false force S d).2.2.tmp = true := by
  unfold ssf_save_io
  rw [if_neg (by rcases h with h | h <;> simp [h])]
  exact ⟨rfl, rfl, rfl⟩

/-- Witness for the amended C7 at concrete inputs: a forced save of the
clean sample store with a failing write raises, leaves the (empty) disk
unchanged and leaves the temporary file behind. -/
theorem c7_failed_save_witness :
    (ssf_save_io false true wStore emptyDisk).1 = some "temp write failed" ∧
    (ssf_save_io false true wStore emptyDisk).2.2.file = none ∧
    (ssf_save_io false true wStore emptyDisk).2.2.tmp = true :=
  c7_failed_save true wStore emptyDisk (Or.inl rfl)

/-- **C4.** For every store opened with a master key whose hash differs
from the header's recorded master-key hash and containing no valid rotation
chain (the reserved item is absent or fails to decrypt — both give an
absent retrieval — or decrypts to a key whose hash differs from the
recorded one), `validate_master_key()` returns the boolean false, raises no
exception and leaves the state unchanged. -/
theorem c4_wrong_key_returns_false (S : SecureStore) (d : DiskState) (rng : Nat)
    (hmac : isTruthy S.header.items_mac_b64 = true)
    (hne : S.header.mk_hash ≠ master_key_hash S)
    (hchain : retrieve_secret S AUTO_EXCHANGE_OLD_MASTER_KEY = none ∨
      ∀ old, retrieve_secret S AUTO_EXCHANGE_OLD_MASTER_KEY = some old →
        S.header.mk_hash ≠ hash_bytes old) :
    validate_master_key S d rng =
      { exc := none, valid := false, S := S, d := d, rng := rng } := by
  unfold validate_master_key
  rw [if_neg (by simp [hmac]), if_neg hne]
  cases hre : retrieve_secret S AUTO_EXCHANGE_OLD_MASTER_KEY with
  | none => rfl
  | some old =>
    rcases hchain with hc | hc
    · rw [hre] at hc
      cases hc
    · exact if_pos (hc old hre)

/-- Witness for C4: the sample store opened with an unrelated key and no
reserved rotation item validates to false without raising. -/
theorem c4_wrong_key_returns_false_witness :
    validate_master_key c4Store emptyDisk 3 =
      { exc := none, valid := false, S := c4Store, d := emptyDisk, rng := 3 } :=
  c4_wrong_key_returns_false c4Store emptyDisk 3 rfl (by decide) (Or.inl rfl)

/-- **C8.** For every name and every string value whose UTF-8 encoding is
at most `MAX_SECRET_LEN` (1000) bytes, `store_secret` succeeds and an
immediate `retrieve_secret` of the same name returns exactly the stored
value; if the encoding exceeds 1000 bytes, `store_secret` raises
`value too large` and returns the object unchanged (the length check
precedes any mutation, so the item map is untouched). -/
theorem c8_roundtrip_and_length_limit (S : SecureStore) (rng : Nat) (n : String) (v : String) :
    (v.utf8ByteSize ≤ MAX_SECRET_LEN →
      (store_secret S rng n (Bytes.str v)).1 = none ∧
      retrieve_secret (store_secret S rng n (Bytes.str v)).2.1 n = some (Bytes.str v)) ∧
    (v.utf8ByteSize > MAX_SECRET_LEN →
      store_secret S rng n (Bytes.str v) = (some "value too large", S, rng)) := by
  constructor
  · intro h
    have hu : utf8Len (Bytes.str v) ≤ MAX_SECRET_LEN := h
    rw [store_secret_ok S rng n (Bytes.str v) hu]
    refine ⟨rfl, ?_⟩
    unfold retrieve_secret
    rw [show ({ S with items := dinsert S.items n (freshEntry S rng n (Bytes.str v)), dirty := true } : SecureStore).items = dinsert S.items n (freshEntry S rng n (Bytes.str v)) from rfl]
    rw [dget_dinsert_self]
    exact if_pos ⟨rfl, rfl, rfl⟩
  · intro h
    unfold store_secret
    rw [if_pos (by simpa [utf8Len] using h)]

/-- Witness for C8 at concrete inputs: storing `"x"` under a fresh name in
the sample store and reading it back yields `"x"`. -/
theorem c8_roundtrip_witness :
    retrieve_secret (store_secret wStore 10 "C" (Bytes.str "x")).2.1 "C" =
      some (Bytes.str "x") :=
  ((c8_roundtrip_and_length_limit wStore 10 "C" "x").1 (by decide)).2

/-- **C9.** For every store (hence every master key and salt) and every two
item maps that contain the same name-entry pairs in different insertion
orders (distinct names, as in a Python dict), `compute_items_mac` produces
identical MACs: the canonicalization sorts the names, so the MAC depends
only on which pairs are present. -/
theorem c9_mac_insertion_order_independent (S : SecureStore) (l1 l2 : Items)
    (hnd : (l1.map Prod.fst).Nodup) (hp : l1.Perm l2) :
    compute_items_mac S l1 = compute_items_mac S l2 := by
  unfold compute_items_mac
  rw [sortItems_eq_of_perm l1 l2 hnd hp]

/-- Witness for C9 at concrete inputs: the two-item map in its two
insertion orders yields the same MAC. -/
theorem c9_mac_insertion_order_independent_witness :
    compute_items_mac wStore c9l1 = compute_items_mac wStore c9l2 :=
  c9_mac_insertion_order_independent wStore c9l1 c9l2 (by decide)
    (by unfold c9l1 c9l2; exact List.Perm.swap _ _ _)

/-- **C2.** After `prepare_auto_key_exchange()` on a store whose header
hash matches its key `K_old`: no exception is raised and the fresh key
`K_new = Bytes.rand rng` is returned; the reserved item `_aemk_old_k`
holds `K_old` encrypted under `K_new`'s derived AES key (fresh nonce, AAD
still binding `K_old`'s hash); the in-memory key is `K_old` again; the
saved header's master-key hash still equals `K_old`'s hash (not `K_new`'s);
and the saved items-MAC is computed under `K_old` over the item set that
includes the reserved item. -/
theorem c2_prepare_state (S : SecureStore) (d : DiskState) (rng : Nat)
    (hwf : S.header.mk_hash = hash_bytes S.master_key)
    (hlen : utf8Len S.master_key ≤ MAX_SECRET_LEN) :
    (prepare_auto_key_exchange S d rng).exc = none ∧
    (prepare_auto_key_exchange S d rng).newKey = some (Bytes.rand rng) ∧
    (prepare_auto_key_exchange S d rng).S.master_key = S.master_key ∧
    dget (prepare_auto_key_exchange S d rng).S.items AUTO_EXCHANGE_OLD_MASTER_KEY =
      some (Bytes.rand (rng + 1),
        Bytes.enc (Bytes.hkdf (Bytes.rand rng) S.salt KeyPurpose.aes) (Bytes.rand (rng + 1))
          (aadOf S AUTO_EXCHANGE_OLD_MASTER_KEY) S.master_key) ∧
    (∃ f, (prepare_auto_key_exchange S d rng).d.file = some f ∧
      f.fitems = prepItems S rng ∧
      f.fheader.mk_hash = S.header.mk_hash ∧
      f.fheader.mk_hash = hash_bytes S.master_key ∧
      f.fheader.items_mac_b64 = some (compute_items_mac S (prepItems S rng))) := by
  have hstep : prepare_auto_key_exchange S d rng =
      { exc := none, newKey := some (Bytes.rand rng),
        S := { prepStore S rng with header := savedHeader (prepStore S rng) },
        d := { file := some (savedFile (prepStore S rng)), tmp := false },
        rng := rng + 2 } := by
    simp only [prepare_auto_key_exchange]
    rw [store_secret_ok _ _ _ _ hlen]
    rfl
  rw [hstep]
  refine ⟨rfl, rfl, rfl, ?_, ?_⟩
  · exact dget_dinsert_self _ _ _
  · refine ⟨savedFile (prepStore S rng), rfl, rfl, rfl, ?_, rfl⟩
    exact hwf

/-- Witness for C2 at concrete inputs: preparing the key exchange on the
sample store returns the fresh key `Bytes.rand 10`. -/
theorem c2_prepare_state_witness :
    (prepare_auto_key_exchange wStore emptyDisk 10).newKey = some (Bytes.rand 10) :=
  (c2_prepare_state wStore emptyDisk 10 rfl (by decide)).2.1

/-- **C5.** Altering any bit of a stored item's nonce or ciphertext makes
`retrieve_secret` of that name return the absent result (as for a name
never stored) without raising, while every other item is retrieved exactly
as before.  A bit-flip of the ciphertext is no longer a valid AES-GCM
ciphertext and a bit-flip of the nonce no longer matches the nonce the
ciphertext was produced under, so authenticated decryption fails (ideal
AEAD). -/
theorem c5_tamper_is_local (S : SecureStore) (a b : String) (i : Nat) (nonce pt ct : Bytes)
    (hab : b ≠ a)
    (hshape : ct = Bytes.enc (derive_key S KeyPurpose.aes) nonce (aadOf S a) pt)
    (hstored : dget S.items a = some (nonce, ct)) :
    retrieve_secret { S with items := dinsert S.items a (Bytes.flip nonce i, ct) } a = none ∧
    retrieve_secret { S with items := dinsert S.items a (nonce, Bytes.flip ct i) } a = none ∧
    retrieve_secret { S with items := dinsert S.items a (Bytes.flip nonce i, ct) } b =
      retrieve_secret S b ∧
    retrieve_secret { S with items := dinsert S.items a (nonce, Bytes.flip ct i) } b =
      retrieve_secret S b := by
  subst hshape
  refine ⟨?_, ?_, ?_, ?_⟩
  · rw [retrieve_dinsert_self]
    exact if_neg (fun h => flip_ne nonce i h.2.1.symm)
  · rw [retrieve_dinsert_self]
    rfl
  · exact retrieve_congr _ S b (dget_dinsert_ne S.items a _ b hab) rfl rfl rfl
  · exact retrieve_congr _ S b (dget_dinsert_ne S.items a _ b hab) rfl rfl rfl

/-- Witness for C5 at concrete inputs: flipping a bit in item `A`'s nonce
in the sample store makes `A` unreadable while `B` still yields `"y"`. -/
theorem c5_tamper_is_local_witness :
    retrieve_secret { wStore with
      items := dinsert wStore.items "A" (Bytes.flip (Bytes.rand 2) 0, wEntryA.2) } "A" = none ∧
    retrieve_secret { wStore with
      items := dinsert wStore.items "A" (Bytes.flip (Bytes.rand 2) 0, wEntryA.2) } "B" =
      retrieve_secret wStore "B" :=
  ⟨(c5_tamper_is_local wStore "A" "B" 0 (Bytes.rand 2) (Bytes.str "x") wEntryA.2
      (by decide) rfl rfl).1,
   (c5_tamper_is_local wStore "A" "B" 0 (Bytes.rand 2) (Bytes.str "x") wEntryA.2
      (by decide) rfl rfl).2.2.1⟩

/-- **C10.** During rotation execution, only items that successfully
decrypt under the old key are re-encrypted: an item whose decryption fails
is silently skipped by `retrieve_all_secrets` (its name never appears in
the decrypted map), remains in the item map with its original entry, is
still covered by the items-MAC saved under the new key, and does not make
the rotation fail. -/
theorem c10_failed_items_survive_rotation (S : SecureStore) (newKey : Bytes)
    (d : DiskState) (rng : Nat) (w : String) (e : Entry)
    (hw : dget S.items w = some e)
    (hfail : retrieve_secret S w = none)
    (hwr : w ≠ AUTO_EXCHANGE_OLD_MASTER_KEY)
    (hlen : ∀ p ∈ retrieve_all_secrets (delete_secret S AUTO_EXCHANGE_OLD_MASTER_KEY).1,
      utf8Len p.2 ≤ MAX_SECRET_LEN) :
    (auto_key_exchange S newKey d rng).exc = none ∧
    (auto_key_exchange S newKey d rng).valid = true ∧
    (∀ p ∈ retrieve_all_secrets (delete_secret S AUTO_EXCHANGE_OLD_MASTER_KEY).1, p.1 ≠ w) ∧
    dget (auto_key_exchange S newKey d rng).S.items w = some e ∧
    (auto_key_exchange S newKey d rng).S.master_key = newKey ∧
    ((auto_key_exchange S newKey d rng).d.file =
      some { fheader := (auto_key_exchange S newKey d rng).S.header,
             fitems := (auto_key_exchange S newKey d rng).S.items }) ∧
    (auto_key_exchange S newKey d rng).S.header.items_mac_b64 =
      some (compute_items_mac (auto_key_exchange S newKey d rng).S
        (auto_key_exchange S newKey d rng).S.items) := by
  have hgw : dget (delete_secret S AUTO_EXCHANGE_OLD_MASTER_KEY).1.items w = some e := by
    show dget (dremove S.items AUTO_EXCHANGE_OLD_MASTER_KEY) w = some e
    rw [dget_dremove_ne _ _ _ hwr]
    exact hw
  have hr1w : retrieve_secret (delete_secret S AUTO_EXCHANGE_OLD_MASTER_KEY).1 w = none := by
    have hcongr := retrieve_congr (delete_secret S AUTO_EXCHANGE_OLD_MASTER_KEY).1 S w
      (hgw.trans hw.symm) rfl rfl rfl
    rw [hcongr]
    exact hfail
  have hv : ∀ p ∈ retrieve_all_secrets (delete_secret S AUTO_EXCHANGE_OLD_MASTER_KEY).1,
      retrieve_secret (delete_secret S AUTO_EXCHANGE_OLD_MASTER_KEY).1 p.1 = some p.2 := by
    intro p hp
    unfold retrieve_all_secrets at hp
    rcases List.mem_filterMap.mp hp with ⟨q, hq, hfq⟩
    cases hr : retrieve_secret (delete_secret S AUTO_EXCHANGE_OLD_MASTER_KEY).1 q.1 with
    | none => rw [hr] at hfq; cases hfq
    | some v =>
      rw [hr] at hfq
      have hpq : (q.1, v) = p := by simpa using hfq
      rw [← hpq]
      exact hr
  have hvw : ∀ p ∈ retrieve_all_secrets (delete_secret S AUTO_EXCHANGE_OLD_MASTER_KEY).1,
      p.1 ≠ w := by
    intro p hp heq
    have h1 := hv p hp
    rw [heq, hr1w] at h1
    cases h1
  have hall := store_all_spec (retrieve_all_secrets (delete_secret S AUTO_EXCHANGE_OLD_MASTER_KEY).1)
    { (delete_secret S AUTO_EXCHANGE_OLD_MASTER_KEY).1 with master_key := newKey } rng hlen
  rcases hsa : store_all_secrets
      { (delete_secret S AUTO_EXCHANGE_OLD_MASTER_KEY).1 with master_key := newKey } rng
      (retrieve_all_secrets (delete_secret S AUTO_EXCHANGE_OLD_MASTER_KEY).1)
    with ⟨o, S3, rng1⟩
  rw [hsa] at hall
  obtain ⟨ho, hh, hk, hs, hd⟩ := hall
  obtain rfl : o = none := ho
  have hstep : auto_key_exchange S newKey d rng =
      { exc := none, valid := true,
        S := { rotatedStore S3 with header := savedHeader (rotatedStore S3) },
        d := { file := some (savedFile (rotatedStore S3)), tmp := false },
        rng := rng1 } := by
    simp only [auto_key_exchange]
    rw [hsa]
    rfl
  rw [hstep]
  refine ⟨rfl, rfl, hvw, ?_, ?_, rfl, rfl⟩
  · show dget S3.items w = some e
    rw [hd w hvw]
    exact hgw
  · show S3.master_key = newKey
    rw [hk]

/-- Witness for C10 at concrete inputs: rotating the sample store that
contains the undecryptable item `W` succeeds, skips `W` in the decrypted
map and keeps `W`'s original entry in the saved item map. -/
theorem c10_failed_items_survive_rotation_witness :
    (auto_key_exchange c10Store (Bytes.rand 50) emptyDisk 20).exc = none ∧
    dget (auto_key_exchange c10Store (Bytes.rand 50) emptyDisk 20).S.items "W" =
      some c10Entry :=
  ⟨(c10_failed_items_survive_rotation c10Store (Bytes.rand 50) emptyDisk 20 "W" c10Entry
      rfl rfl (by decide) (by decide)).1,
   (c10_failed_items_survive_rotation c10Store (Bytes.rand 50) emptyDisk 20 "W" c10Entry
      rfl rfl (by decide) (by decide)).2.2.2.1⟩

end Mg
